import Mathlib

/-!
Verification of the request-authentication and installation-handshake
subsystem of the sticky-cart-db repository (Express servers in
`src/sticky-add-to-cart/server.js` and the near-duplicate variants in
`src/unnamed/part_001`).

The JavaScript handlers are shallowly embedded as pure Lean functions:
query objects become association lists with unique keys, JavaScript
strings are Lean strings (with explicit UTF-16 code-unit and UTF-8 byte
encodings where the source compares or buffers them), outbound `fetch`
calls become oracle parameters recording their outcomes, and thrown
exceptions become `Except.error`.
-/

namespace StickyCart

/-- UTF-16 code units of a character, as JavaScript strings store them. -/
def utf16Char (c : Char) : List Nat :=
  if c.toNat < 0x10000 then [c.toNat]
  else [0xD800 + (c.toNat - 0x10000) / 0x400, 0xDC00 + (c.toNat - 0x10000) % 0x400]

/-- UTF-16 code units of a list of characters. -/
def utf16List : List Char → List Nat
  | [] => []
  | c :: cs => utf16Char c ++ utf16List cs

/-- UTF-16 code units of a string (the value sequence of a JS string). -/
def utf16Str (s : String) : List Nat := utf16List s.data

/-- UTF-8 bytes of a character, as `Buffer.from(s, utf8)` produces them. -/
def utf8Char (c : Char) : List Nat :=
  if c.toNat < 0x80 then [c.toNat]
  else if c.toNat < 0x800 then
    [0xC0 + c.toNat / 0x40, 0x80 + c.toNat % 0x40]
  else if c.toNat < 0x10000 then
    [0xE0 + c.toNat / 0x1000, 0x80 + (c.toNat / 0x40) % 0x40, 0x80 + c.toNat % 0x40]
  else
    [0xF0 + c.toNat / 0x40000, 0x80 + (c.toNat / 0x1000) % 0x40,
      0x80 + (c.toNat / 0x40) % 0x40, 0x80 + c.toNat % 0x40]

/-- UTF-8 bytes of a list of characters. -/
def utf8List : List Char → List Nat
  | [] => []
  | c :: cs => utf8Char c ++ utf8List cs

/-- UTF-8 bytes of a string, the content of `Buffer.from(s, utf8)`. -/
def utf8Str (s : String) : List Nat := utf8List s.data

/-- Lexicographic strict order on code-unit lists; `lexLt (utf16Str a)
(utf16Str b)` is exactly the JavaScript string comparison `a < b` used by
the default `Array.prototype.sort()` comparator. -/
def lexLt : List Nat → List Nat → Bool
  | [], [] => false
  | [], _ :: _ => true
  | _ :: _, [] => false
  | a :: as, b :: bs => decide (a < b) || (a == b && lexLt as bs)

/-- The Node `crypto.timingSafeEqual` on byte sequences: it throws
(`Except.error`) when the buffer lengths differ, and otherwise folds the
bitwise-or of the bytewise xors, reporting whether the accumulated word is
zero — a comparison that does not exit early on the first differing byte. -/
def timingSafeEqual (a b : List Nat) : Except String Bool :=
  if a.length = b.length then
    .ok (((a.zip b).foldl (fun acc p => acc ||| (p.1 ^^^ p.2)) 0) == 0)
  else
    .error "ERR_CRYPTO_TIMING_SAFE_EQUAL_BUFFER_LENGTH"

/-- JavaScript truthiness test `!x` for an optional string: `undefined`
and the empty string are falsy. -/
def jsFalsy : Option String → Bool
  | none => true
  | some s => s == ""

/-- Property lookup on a parsed query object (`req.query`); keys are
unique in a JS object, so the first binding is the binding. -/
def getParam (q : List (String × String)) (k : String) : Option String :=
  (q.find? (fun p => p.1 == k)).map (fun p => p.2)

/-- Effect of the rest-destructuring `const { hmac, ...params } = query`:
every binding except the `hmac` property. -/
def stripHmac (q : List (String × String)) : List (String × String) :=
  q.filter (fun p => p.1 ≠ "hmac")

/-- Key order used by `Object.keys(params).sort()`: the default sort
comparator compares keys as JS strings, i.e. by UTF-16 code units.
`keyLEb p q` says the key of `p` need not come after the key of `q`. -/
def keyLEb (p q : String × String) : Bool := !(lexLt (utf16Str q.1) (utf16Str p.1))

/-- Key order demanded by the specification text for the OAuth message:
keys sorted ascending byte-wise, i.e. by UTF-8 bytes. This definition
follows the words of the spec and exists to be compared with the
implementation order `keyLEb`. -/
def byteKeyLEb (p q : String × String) : Bool := !(lexLt (utf8Str q.1) (utf8Str p.1))

/-- Insertion of a binding into a list sorted by the comparator `le`. -/
def orderedInsertBy (le : (String × String) → (String × String) → Bool)
    (x : String × String) : List (String × String) → List (String × String)
  | [] => [x]
  | y :: ys => if le x y then x :: y :: ys else y :: orderedInsertBy le x ys

/-- Insertion sort of bindings by the comparator `le`; for a comparator
without ties this is the unique sorted permutation, which is what
`Array.prototype.sort()` returns. -/
def sortPairsBy (le : (String × String) → (String × String) → Bool) :
    List (String × String) → List (String × String)
  | [] => []
  | x :: xs => orderedInsertBy le x (sortPairsBy le xs)

/-- The parameter list as sorted by `Object.keys(params).sort()`. -/
def sortedParams (q : List (String × String)) : List (String × String) :=
  sortPairsBy keyLEb (stripHmac q)

/-- The signed message of the OAuth-query verification mode:
`Object.keys(params).sort().map(key => ...).join(..)`, each entry rendered
as the key, an equals sign, and the value verbatim. -/
def buildMessage (q : List (String × String)) : String :=
  String.intercalate "&" ((sortedParams q).map (fun p => p.1 ++ "=" ++ p.2))

/-- The signed message as the specification words it, with keys sorted
byte-wise ascending instead of by UTF-16 code units. -/
def buildMessageSpec (q : List (String × String)) : String :=
  String.intercalate "&" ((sortPairsBy byteKeyLEb (stripHmac q)).map (fun p => p.1 ++ "=" ++ p.2))

/-- The `verifyOAuthHmac` of `src/sticky-add-to-cart/server.js` (and of the
first variant in `src/unnamed/part_001`): destructure away `hmac`, return
`false` when it is absent (JS-falsy), otherwise hex-HMAC the sorted message
and hand the two UTF-8 buffers to `crypto.timingSafeEqual`, whose
length-mismatch exception propagates. The ambient `crypto.createHmac`
digest is the parameter `hmacHex`. -/
def verifyOAuthHmac (hmacHex : String → String) (q : List (String × String)) :
    Except String Bool :=
  match getParam q "hmac" with
  | none => .ok false
  | some h =>
    if h == "" then .ok false
    else
      timingSafeEqual (utf8Str (hmacHex (buildMessage q))) (utf8Str h)

/-- The `verifyOAuthHmac` of the second variant in `src/unnamed/part_001`
(lines 288–322): it lacks the `if (!hmac) return false` guard, so with the
`hmac` parameter absent it still computes the digest and then throws a
`TypeError` at `Buffer.from(undefined, utf8)`. -/
def verifyOAuthHmacNoGuard (hmacHex : String → String) (q : List (String × String)) :
    Except String Bool :=
  let generated := utf8Str (hmacHex (buildMessage q))
  match getParam q "hmac" with
  | none => .error "TypeError: first argument must be a string, Buffer, ..."
  | some h => timingSafeEqual generated (utf8Str h)

/-- An inbound webhook delivery as the unified endpoint sees it: the three
Shopify headers (possibly absent) and the raw body string that
`express.text` (type application/json) hands over unparsed. -/
structure WebhookReq where
  hmac : Option String
  topic : Option String
  shop : Option String
  body : String
deriving DecidableEq

/-- Observable outcome of the unified webhook route: HTTP status and body,
whether the topic-classification step was reached, and whether the handler
parsed the body into structured data (it never does; the route runs before
the JSON body parsers). -/
structure WebhookRes where
  status : Nat
  body : String
  classified : Bool
  parsedBody : Bool
deriving DecidableEq

/-- The three mandatory platform compliance topics. -/
def complianceTopics : List String :=
  ["customers/data_request", "customers/redact", "shop/redact"]

/-- The unified webhook endpoint `app.post(/api/webhooks, ..)` of
`src/sticky-add-to-cart/server.js` (lines 33–81): reject with 401 when the
signature header is JS-falsy, compute the base64 HMAC of the raw body
(`hmacB64` is the ambient `crypto.createHmac(..).digest(base64)`),
reject with 401 on `generatedHmac !== hmac`, then classify the topic —
compliance topics are acknowledged immediately with `200 OK`, and every
other topic (including `app/uninstalled`, whose branch only logs) also
returns `200 OK`. The `downstream` oracle stands for any injectable
data-store or external collaborator; the handler never consults it before
responding, mirroring the source, which performs no downstream call. -/
def webhookHandler (hmacB64 : String → String) (downstream : String → Bool)
    (r : WebhookReq) : WebhookRes :=
  if jsFalsy r.hmac then
    { status := 401, body := "Unauthorized", classified := false, parsedBody := false }
  else
    let h := r.hmac.getD ""
    if hmacB64 r.body ≠ h then
      { status := 401, body := "Unauthorized", classified := false, parsedBody := false }
    else
      if r.topic = some "customers/data_request" ∨ r.topic = some "customers/redact" ∨
          r.topic = some "shop/redact" then
        { status := 200, body := "OK", classified := true, parsedBody := false }
      else
        let _ := downstream
        { status := 200, body := "OK", classified := true, parsedBody := false }

/-- Verification predicate of the unified webhook route: a JS-truthy
signature header whose value equals the base64 HMAC of the raw body. -/
def webhookVerified (hmacB64 : String → String) (r : WebhookReq) : Prop :=
  ∃ h, r.hmac = some h ∧ h ≠ "" ∧ hmacB64 r.body = h

/-- Outbound platform calls that `completeInstall` can make. -/
inductive OutboundCall where
  | tokenExchange
  | webhookRegistration
deriving DecidableEq

/-- Outcome of the token-exchange `fetch`: `ok` is `tokenRes.ok`, and
`accessToken` is the outcome of `tokenRes.json()` (an `Except` because
`.json()` throws on a non-JSON body) carrying the optional
`access_token` field. -/
structure TokenExchangeResult where
  ok : Bool
  accessToken : Except String (Option String)

/-- Oracles for the two outbound calls of the installation flow: the
token-exchange fetch (which may itself throw) and the
webhook-registration fetch (`Except.error` for a network-level throw,
`.ok b` for an HTTP response with `response.ok = b`). -/
structure InstallEnv where
  tokenExchange : Except String TokenExchangeResult
  registration : Except String Bool

/-- Observable outcome of the `/auth/callback` route: HTTP status, response
text, redirect target when a redirect is issued, and the list of outbound
calls performed. -/
structure InstallRes where
  status : Nat
  message : String
  redirect : Option String
  calls : List OutboundCall
deriving DecidableEq

/-- Replacement of the first occurrence of a pattern, as
`String.prototype.replace` with a string pattern does. -/
def replaceFirstChars (pat rep : List Char) : List Char → List Char
  | [] => []
  | c :: cs =>
    if (c :: cs).take pat.length == pat then rep ++ (c :: cs).drop pat.length
    else c :: replaceFirstChars pat rep cs

/-- String wrapper for `replaceFirstChars`. -/
def replaceFirst (s pat rep : String) : String :=
  String.mk (replaceFirstChars pat.data rep.data s.data)

/-- The `app.get(/auth/callback, ..)` route of `src/sticky-add-to-cart/server.js`
(lines 209–253). Control flow of the source, in order: 400 when `shop` or
`code` is JS-falsy; `verifyOAuthHmac` — called outside the `try`, so its
exception escapes the handler and is turned into a 500-class response by
the default error handler of the framework — then 401 on `false`; the
token-exchange fetch inside `try` (a throw is caught as 500 `OAuth failed`,
a non-`ok` response returns 500 `Failed to exchange token` before
registration); `registerWebhooks`, whose body wraps its fetch in its own
`try`/`catch` and only logs a non-`ok` response, so no registration outcome
can alter the flow; finally the 302 redirect to the platform admin URL. -/
def completeInstall (hmacHex : String → String) (env : InstallEnv)
    (apiKey : String) (q : List (String × String)) : InstallRes :=
  let shop := getParam q "shop"
  let code := getParam q "code"
  if jsFalsy shop || jsFalsy code then
    { status := 400, message := "Missing OAuth parameters", redirect := none, calls := [] }
  else
    match verifyOAuthHmac hmacHex q with
    | .error _ =>
      { status := 500, message := "Internal Server Error", redirect := none, calls := [] }
    | .ok false =>
      { status := 401, message := "Invalid OAuth HMAC", redirect := none, calls := [] }
    | .ok true =>
      match env.tokenExchange with
      | .error _ =>
        { status := 500, message := "OAuth failed", redirect := none,
          calls := [.tokenExchange] }
      | .ok t =>
        if !t.ok then
          { status := 500, message := "Failed to exchange token", redirect := none,
            calls := [.tokenExchange] }
        else
          match t.accessToken with
          | .error _ =>
            { status := 500, message := "OAuth failed", redirect := none,
              calls := [.tokenExchange] }
          | .ok _ =>
            let s := shop.getD ""
            { status := 302, message := "",
              redirect := some ("https://admin.shopify.com/store/" ++
                replaceFirst s ".myshopify.com" "" ++ "/apps/" ++ apiKey),
              calls := [.tokenExchange, .webhookRegistration] }

/-- The `app.get(/auth/callback, ..)` route of the first variant server in
`src/unnamed/part_001` (lines 113–148). Differences from the primary
server: `host` is also required; the `ok` flag of the token response is
never checked, so `tokenRes.json()` runs on error responses and, when the
error body parses as JSON, the flow continues into registration with an
absent `access_token`; the variant `registerWebhooks` (lines 74–89) is a
bare `await fetch` without `try`/`catch`, so a network-level throw there is
caught by the route-level `catch` and becomes 500 `OAuth failed`; success
redirects to the relative `/app` URL. -/
def completeInstallVariant (hmacHex : String → String) (env : InstallEnv)
    (q : List (String × String)) : InstallRes :=
  let shop := getParam q "shop"
  let code := getParam q "code"
  let host := getParam q "host"
  if jsFalsy shop || jsFalsy code || jsFalsy host then
    { status := 400, message := "Missing OAuth parameters", redirect := none, calls := [] }
  else
    match verifyOAuthHmac hmacHex q with
    | .error _ =>
      { status := 500, message := "Internal Server Error", redirect := none, calls := [] }
    | .ok false =>
      { status := 401, message := "Invalid OAuth HMAC", redirect := none, calls := [] }
    | .ok true =>
      match env.tokenExchange with
      | .error _ =>
        { status := 500, message := "OAuth failed", redirect := none,
          calls := [.tokenExchange] }
      | .ok t =>
        match t.accessToken with
        | .error _ =>
          { status := 500, message := "OAuth failed", redirect := none,
            calls := [.tokenExchange] }
        | .ok _ =>
          match env.registration with
          | .error _ =>
            { status := 500, message := "OAuth failed", redirect := none,
              calls := [.tokenExchange, .webhookRegistration] }
          | .ok _ =>
            { status := 302, message := "",
              redirect := some ("/app?shop=" ++ shop.getD "" ++ "&host=" ++ host.getD ""),
              calls := [.tokenExchange, .webhookRegistration] }

/-- Outcome of the `/auth` route: status and redirect target. -/
structure BeginRes where
  status : Nat
  location : Option String
deriving DecidableEq

/-- Uppercase hex digit of a value below 16. -/
def hexDigitUpper (n : Nat) : Char :=
  if n < 10 then Char.ofNat (0x30 + n) else Char.ofNat (0x41 + n - 10)

/-- Bytes that `encodeURIComponent` leaves unescaped. -/
def uriUnescapedByte (b : Nat) : Bool :=
  (0x41 ≤ b && b ≤ 0x5A) || (0x61 ≤ b && b ≤ 0x7A) || (0x30 ≤ b && b ≤ 0x39) ||
  b == 0x2D || b == 0x5F || b == 0x2E || b == 0x21 || b == 0x7E || b == 0x2A ||
  b == 0x27 || b == 0x28 || b == 0x29

/-- Percent-encoding of a UTF-8 byte sequence. -/
def pctEncode : List Nat → List Char
  | [] => []
  | b :: bs =>
    (if uriUnescapedByte b then [Char.ofNat b]
     else ['%', hexDigitUpper (b / 16), hexDigitUpper (b % 16)]) ++ pctEncode bs

/-- The JavaScript `encodeURIComponent` function. -/
def encodeURIComponent (s : String) : String := String.mk (pctEncode (utf8Str s))

/-- The `app.get(/auth, ..)` route of `src/sticky-add-to-cart/server.js`
(lines 193–206): 400 when the `shop` query parameter is JS-falsy,
otherwise an immediate 302 to the authorize URL interpolated from the
shop value verbatim. No other check is applied to `shop`. -/
def beginInstall (apiKey scopes host : String) (shop : Option String) : BeginRes :=
  if jsFalsy shop then
    { status := 400, location := none }
  else
    let s := shop.getD ""
    { status := 302,
      location := some ("https://" ++ s ++ "/admin/oauth/authorize?client_id=" ++
        apiKey ++ "&scope=" ++ scopes ++ "&redirect_uri=" ++
        encodeURIComponent (host ++ "/auth/callback")) }

/-- Modelled from the spec: the platform shop-domain naming pattern that
§4.3 requires `beginInstall` to validate against (a non-empty label of
letters, digits or hyphens followed by `.myshopify.com`). The source
contains no such validation, so this definition follows the words of the
spec and is used only to state the claim about it. -/
def shopDomainPattern (s : String) : Bool :=
  let suffix := ".myshopify.com".data
  let d := s.data
  d.drop (d.length - suffix.length) == suffix && decide (suffix.length < d.length) &&
    (d.take (d.length - suffix.length)).all (fun c => c.isAlphanum || c == '-')

/-- A 64-character hex-shaped string, used to instantiate digest oracles in
concrete witnesses (a real HMAC-SHA256 hex digest always has 64 ASCII
characters). -/
def zeros64 : String := String.mk (List.replicate 64 '0')

/-- A constant digest oracle producing a 64-character output, playing the
role of the hex HMAC in concrete witnesses. -/
def constHex64 : String → String := fun _ => zeros64

/-- Another 64-character hex-shaped string, distinct from `zeros64`. -/
def effs64 : String := String.mk (List.replicate 64 'f')

/-- A single astral-plane character (U+10000), used as a query key. -/
def astralKey : String := String.mk [Char.ofNat 0x10000]

/-- A single basic-plane character (U+FFFD), used as a query key. -/
def bmpKey : String := String.mk [Char.ofNat 0xFFFD]

instance : DecidableEq (Except String Bool) := fun a b =>
  match a, b with
  | .ok x, .ok y => decidable_of_iff (x = y) (by simp)
  | .ok _, .error _ => .isFalse (by simp)
  | .error _, .ok _ => .isFalse (by simp)
  | .error e, .error f => decidable_of_iff (e = f) (by simp)

/-- A character is either below the surrogate range or above it and below
the code-point ceiling; this is the validity invariant `Char` carries. -/
theorem char_range (c : Char) : c.toNat < 0xD800 ∨ (0xDFFF < c.toNat ∧ c.toNat < 0x110000) := by
  rcases c with ⟨v, hv⟩
  rcases hv with h | ⟨h1, h2⟩
  · exact Or.inl h
  · exact Or.inr ⟨h1, h2⟩

/-- Characters with equal code points are equal. -/
theorem char_toNat_inj {a b : Char} (h : a.toNat = b.toNat) : a = b :=
  Char.ext (UInt32.ext h)

/-- Shape of a one-unit or two-unit UTF-16 encoding, together with the
range information of its leading unit. -/
theorem utf16Char_shape (c : Char) :
    (c.toNat < 0x10000 ∧ (c.toNat < 0xD800 ∨ 0xDFFF < c.toNat) ∧ utf16Char c = [c.toNat]) ∨
    (0x10000 ≤ c.toNat ∧ c.toNat < 0x110000 ∧
      utf16Char c = [0xD800 + (c.toNat - 0x10000) / 0x400, 0xDC00 + (c.toNat - 0x10000) % 0x400]) := by
  rcases char_range c with h | ⟨h1, h2⟩
  · exact Or.inl ⟨by omega, Or.inl h, by simp [utf16Char]; omega⟩
  · by_cases hc : c.toNat < 0x10000
    · exact Or.inl ⟨hc, Or.inr h1, by simp [utf16Char, hc]⟩
    · exact Or.inr ⟨by omega, h2, by simp [utf16Char, hc]⟩

/-- UTF-16 encoding of character lists is injective: the leading unit of
each character determines whether one or two units follow, so equal
code-unit streams decode to equal character lists. -/
theorem utf16List_inj : ∀ {l1 l2 : List Char}, utf16List l1 = utf16List l2 → l1 = l2 := by
  intro l1
  induction l1 with
  | nil =>
    intro l2 h
    cases l2 with
    | nil => rfl
    | cons b bs =>
      exfalso
      rcases utf16Char_shape b with ⟨_, _, hb⟩ | ⟨_, _, hb⟩ <;>
        simp [utf16List, hb] at h
  | cons a as ih =>
    intro l2 h
    cases l2 with
    | nil =>
      exfalso
      rcases utf16Char_shape a with ⟨_, _, ha⟩ | ⟨_, _, ha⟩ <;>
        simp [utf16List, ha] at h
    | cons b bs =>
      simp only [utf16List] at h
      rcases utf16Char_shape a with ⟨ha1, ha2, ha⟩ | ⟨ha1, ha2, ha⟩ <;>
        rcases utf16Char_shape b with ⟨hb1, hb2, hb⟩ | ⟨hb1, hb2, hb⟩ <;>
        rw [ha, hb] at h <;> simp only [List.cons_append, List.nil_append,
          List.cons.injEq] at h
      · exact congrArg₂ (· :: ·) (char_toNat_inj h.1) (ih h.2)
      · omega
      · omega
      · refine congrArg₂ (· :: ·) (char_toNat_inj ?_) (ih h.2.2)
        omega

/-- UTF-16 encoding of strings is injective. -/
theorem utf16Str_inj {s1 s2 : String} (h : utf16Str s1 = utf16Str s2) : s1 = s2 := by
  rcases s1 with ⟨d1⟩
  rcases s2 with ⟨d2⟩
  exact congrArg String.mk (utf16List_inj (by simpa [utf16Str] using h))

/-- A list is never lexicographically below itself. -/
theorem lexLt_self (l : List Nat) : lexLt l l = false := by
  induction l with
  | nil => rfl
  | cons a as ih => simp [lexLt, ih]

/-- Strict lexicographic order is asymmetric. -/
theorem lexLt_asymm : ∀ {l1 l2 : List Nat}, lexLt l1 l2 = true → lexLt l2 l1 = false := by
  intro l1
  induction l1 with
  | nil =>
    intro l2 h
    cases l2 with
    | nil => simp [lexLt] at h
    | cons b bs => simp [lexLt]
  | cons a as ih =>
    intro l2 h
    cases l2 with
    | nil => simp [lexLt] at h
    | cons b bs =>
      simp only [lexLt, Bool.or_eq_true, decide_eq_true_eq, Bool.and_eq_true,
        beq_iff_eq] at h ⊢
      simp only [Bool.or_eq_false_iff, decide_eq_false_iff_not, Bool.and_eq_false_iff,
        beq_eq_false_iff_ne, ne_eq]
      rcases h with h | ⟨rfl, h⟩
      · constructor
        · omega
        · left
          omega
      · exact ⟨by omega, Or.inr (ih h)⟩

/-- Strict lexicographic order is transitive. -/
theorem lexLt_trans : ∀ {l1 l2 l3 : List Nat},
    lexLt l1 l2 = true → lexLt l2 l3 = true → lexLt l1 l3 = true := by
  intro l1
  induction l1 with
  | nil =>
    intro l2 l3 h1 h2
    cases l2 with
    | nil => simp [lexLt] at h1
    | cons b bs =>
      cases l3 with
      | nil => simp [lexLt] at h2
      | cons c cs => simp [lexLt]
  | cons a as ih =>
    intro l2 l3 h1 h2
    cases l2 with
    | nil => simp [lexLt] at h1
    | cons b bs =>
      cases l3 with
      | nil => simp [lexLt] at h2
      | cons c cs =>
        simp only [lexLt, Bool.or_eq_true, decide_eq_true_eq, Bool.and_eq_true,
          beq_iff_eq] at h1 h2 ⊢
        rcases h1 with h1 | ⟨rfl, h1⟩
        · rcases h2 with h2 | ⟨rfl, h2⟩
          · left; omega
          · left; omega
        · rcases h2 with h2 | ⟨rfl, h2⟩
          · left; omega
          · exact Or.inr ⟨rfl, ih h1 h2⟩

/-- Lists not strictly below each other in either direction are equal. -/
theorem lexLt_conn : ∀ {l1 l2 : List Nat},
    lexLt l1 l2 = false → lexLt l2 l1 = false → l1 = l2 := by
  intro l1
  induction l1 with
  | nil =>
    intro l2 h1 _
    cases l2 with
    | nil => rfl
    | cons b bs => simp [lexLt] at h1
  | cons a as ih =>
    intro l2 h1 h2
    cases l2 with
    | nil => simp [lexLt] at h2
    | cons b bs =>
      simp only [lexLt, Bool.or_eq_false_iff, decide_eq_false_iff_not,
        Bool.and_eq_false_iff, beq_eq_false_iff_ne, ne_eq] at h1 h2
      have hab : a = b := by omega
      subst hab
      rcases h1.2 with h | h
      · omega
      · rcases h2.2 with h' | h'
        · omega
        · rw [ih h h']

/-- Transitivity of the reflexive (negated) order. -/
theorem lexLt_false_trans {l1 l2 l3 : List Nat}
    (h1 : lexLt l2 l1 = false) (h2 : lexLt l3 l2 = false) : lexLt l3 l1 = false := by
  cases h3 : lexLt l3 l1 with
  | false => rfl
  | true =>
    exfalso
    cases c : lexLt l1 l2 with
    | true =>
      have := lexLt_trans h3 c
      rw [this] at h2
      exact Bool.noConfusion h2
    | false =>
      have := lexLt_conn c h1
      subst this
      rw [h3] at h2
      exact Bool.noConfusion h2

/-- The JS key comparator is total. -/
theorem keyLEb_total {p q : String × String} (h : keyLEb p q = false) : keyLEb q p = true := by
  unfold keyLEb at h ⊢
  rw [Bool.not_eq_false'] at h
  rw [lexLt_asymm h]
  rfl

/-- The JS key comparator is transitive. -/
theorem keyLEb_trans {p q r : String × String}
    (h1 : keyLEb p q = true) (h2 : keyLEb q r = true) : keyLEb p r = true := by
  unfold keyLEb at h1 h2 ⊢
  rw [Bool.not_eq_true'] at h1 h2
  rw [lexLt_false_trans h1 h2]
  rfl

/-- Ties of the JS key comparator are equalities of keys. -/
theorem keyLEb_tie {p q : String × String}
    (h1 : keyLEb p q = true) (h2 : keyLEb q p = true) : p.1 = q.1 := by
  unfold keyLEb at h1 h2
  rw [Bool.not_eq_true'] at h1 h2
  exact utf16Str_inj (lexLt_conn h2 h1)

/-- Membership in an ordered insertion. -/
theorem mem_orderedInsertBy (le : (String × String) → (String × String) → Bool)
    (x : String × String) :
    ∀ (l : List (String × String)) (a : String × String),
      a ∈ orderedInsertBy le x l ↔ a = x ∨ a ∈ l := by
  intro l
  induction l with
  | nil => intro a; simp [orderedInsertBy]
  | cons y ys ih =>
    intro a
    unfold orderedInsertBy
    by_cases hle : le x y
    · simp [hle]
    · simp only [hle, Bool.false_eq_true, if_false, List.mem_cons, ih]
      tauto

/-- Ordered insertion permutes the element onto the list. -/
theorem perm_orderedInsertBy (le : (String × String) → (String × String) → Bool)
    (x : String × String) :
    ∀ l : List (String × String), (orderedInsertBy le x l).Perm (x :: l) := by
  intro l
  induction l with
  | nil => simp [orderedInsertBy]
  | cons y ys ih =>
    unfold orderedInsertBy
    by_cases hle : le x y
    · simp [hle]
    · simp only [hle, Bool.false_eq_true, if_false]
      exact (ih.cons y).trans (List.Perm.swap x y ys)

/-- The insertion sort is a permutation of its input. -/
theorem perm_sortPairsBy (le : (String × String) → (String × String) → Bool) :
    ∀ l : List (String × String), (sortPairsBy le l).Perm l := by
  intro l
  induction l with
  | nil => simp [sortPairsBy]
  | cons x xs ih =>
    unfold sortPairsBy
    exact (perm_orderedInsertBy le x (sortPairsBy le xs)).trans (ih.cons x)

/-- Ordered insertion preserves sortedness for the total transitive JS
comparator. -/
theorem sorted_orderedInsertBy (x : String × String) :
    ∀ l : List (String × String), l.Pairwise (fun a b => keyLEb a b = true) →
      (orderedInsertBy keyLEb x l).Pairwise (fun a b => keyLEb a b = true) := by
  intro l
  induction l with
  | nil => intro _; simp [orderedInsertBy]
  | cons y ys ih =>
    intro hs
    rcases List.pairwise_cons.mp hs with ⟨hy, hys⟩
    unfold orderedInsertBy
    by_cases hle : keyLEb x y
    · simp only [hle, if_true]
      refine List.pairwise_cons.mpr ⟨?_, hs⟩
      intro b hb
      rcases List.mem_cons.mp hb with rfl | hb2
      · exact hle
      · exact keyLEb_trans hle (hy b hb2)
    · simp only [hle, Bool.false_eq_true, if_false]
      refine List.pairwise_cons.mpr ⟨?_, ih hys⟩
      intro b hb
      rcases (mem_orderedInsertBy keyLEb x ys b).mp hb with rfl | hb2
      · exact keyLEb_total (by simpa using hle)
      · exact hy b hb2

/-- The insertion sort by the JS comparator is sorted. -/
theorem sorted_sortPairsBy :
    ∀ l : List (String × String),
      (sortPairsBy keyLEb l).Pairwise (fun a b => keyLEb a b = true) := by
  intro l
  induction l with
  | nil => simp [sortPairsBy]
  | cons x xs ih =>
    unfold sortPairsBy
    exact sorted_orderedInsertBy x (sortPairsBy keyLEb xs) ih

/-- Two sorted permutations of each other are equal as soon as the order
admits no ties between distinct members of the lists. -/
theorem eq_of_perm_sorted_anti {α : Type} {r : α → α → Prop} :
    ∀ {l1 l2 : List α}, l1.Perm l2 → l1.Pairwise r → l2.Pairwise r →
      (∀ a ∈ l1, ∀ b ∈ l1, r a b → r b a → a = b) → l1 = l2 := by
  intro l1
  induction l1 with
  | nil =>
    intro l2 hp _ _ _
    exact (hp.symm.eq_nil).symm
  | cons a t1 ih =>
    intro l2 hp hs1 hs2 hanti
    cases l2 with
    | nil => exact absurd hp.eq_nil (by simp)
    | cons b t2 =>
      have hb1 : b ∈ a :: t1 := hp.mem_iff.mpr (List.mem_cons_self b t2)
      have ha2 : a ∈ b :: t2 := hp.mem_iff.mp (List.mem_cons_self a t1)
      have hab : a = b := by
        rcases List.mem_cons.mp hb1 with h | h
        · exact h.symm
        · have hrab : r a b := (List.pairwise_cons.mp hs1).1 b h
          rcases List.mem_cons.mp ha2 with h' | h'
          · exact h'
          · have hrba : r b a := (List.pairwise_cons.mp hs2).1 a h'
            exact hanti a (List.mem_cons_self a t1) b hb1 hrab hrba
      subst hab
      have ht : t1.Perm t2 := hp.cons_inv
      have := ih ht (List.pairwise_cons.mp hs1).2 (List.pairwise_cons.mp hs2).2
        (fun x hx y hy => hanti x (List.mem_cons_of_mem a hx) y (List.mem_cons_of_mem a hy))
      rw [this]

/-- The sorted parameter list depends only on the multiset of bindings, as
long as keys are unique: the JS sort on keys has no ties to break. -/
theorem sortedParams_perm {q1 q2 : List (String × String)} (hp : q1.Perm q2)
    (hnd : (q1.map Prod.fst).Nodup) : sortedParams q1 = sortedParams q2 := by
  have hperm : (stripHmac q1).Perm (stripHmac q2) := by
    unfold stripHmac
    exact hp.filter _
  apply eq_of_perm_sorted_anti
    (((perm_sortPairsBy keyLEb (stripHmac q1)).trans hperm).trans
      (perm_sortPairsBy keyLEb (stripHmac q2)).symm)
    (sorted_sortPairsBy (stripHmac q1))
    (sorted_sortPairsBy (stripHmac q2))
  intro a ha b hb hab hba
  have ha' : a ∈ q1 :=
    List.mem_of_mem_filter ((perm_sortPairsBy keyLEb (stripHmac q1)).mem_iff.mp ha)
  have hb' : b ∈ q1 :=
    List.mem_of_mem_filter ((perm_sortPairsBy keyLEb (stripHmac q1)).mem_iff.mp hb)
  exact List.inj_on_of_nodup_map hnd ha' hb' (keyLEb_tie hab hba)

/-- Auxiliary: the accumulated or of xors is zero exactly when the
accumulator is zero and every zipped pair is equal. -/
theorem foldl_or_xor_eq_zero : ∀ (l : List (Nat × Nat)) (acc : Nat),
    (l.foldl (fun a p => a ||| (p.1 ^^^ p.2)) acc = 0) ↔ (acc = 0 ∧ ∀ p ∈ l, p.1 = p.2) := by
  intro l
  induction l with
  | nil => simp
  | cons x t ih =>
    intro acc
    simp only [List.foldl_cons, ih, List.mem_cons]
    constructor
    · rintro ⟨h0, hall⟩
      have hx : acc = 0 ∧ x.1 ^^^ x.2 = 0 := by
        constructor
        · apply Nat.eq_of_testBit_eq
          intro i
          have h2 := congrArg (fun n => Nat.testBit n i) h0
          simp [Nat.testBit_lor] at h2
          simp [h2.1, Nat.zero_testBit]
        · apply Nat.eq_of_testBit_eq
          intro i
          have h2 := congrArg (fun n => Nat.testBit n i) h0
          simp [Nat.testBit_lor] at h2
          simp [h2.2, Nat.zero_testBit]
      refine ⟨hx.1, ?_⟩
      intro p hp
      rcases hp with rfl | hp
      · exact Nat.xor_eq_zero.mp hx.2
      · exact hall p hp
    · rintro ⟨rfl, hall⟩
      refine ⟨?_, fun p hp => hall p (Or.inr hp)⟩
      have : x.1 ^^^ x.2 = 0 := Nat.xor_eq_zero.mpr (hall x (Or.inl rfl))
      simp [this]

/-- Equal-length lists whose zip is pairwise equal are equal. -/
theorem eq_of_zip_eq : ∀ {a b : List Nat}, a.length = b.length →
    (∀ p ∈ a.zip b, p.1 = p.2) → a = b := by
  intro a
  induction a with
  | nil =>
    intro b hl _
    cases b with
    | nil => rfl
    | cons y ys => simp at hl
  | cons x xs ih =>
    intro b hl hall
    cases b with
    | nil => simp at hl
    | cons y ys =>
      simp only [List.zip_cons_cons, List.mem_cons] at hall
      have hx : x = y := hall (x, y) (Or.inl rfl)
      have : xs = ys := ih (by simpa using hl) (fun p hp => hall p (Or.inr hp))
      rw [hx, this]

/-- A pair drawn from the zip of a list with itself has equal components. -/
theorem mem_zip_same : ∀ {a : List Nat} {p : Nat × Nat}, p ∈ a.zip a → p.1 = p.2 := by
  intro a
  induction a with
  | nil => intro p hp; simp at hp
  | cons x xs ih =>
    intro p hp
    rcases List.mem_cons.mp (by simpa using hp) with rfl | hp2
    · rfl
    · exact ih hp2

/-- When `timingSafeEqual` returns a boolean, that boolean is exactly
byte-equality of the two buffers. -/
theorem timingSafeEqual_ok_iff {a b : List Nat} {x : Bool}
    (h : timingSafeEqual a b = .ok x) : x = true ↔ a = b := by
  unfold timingSafeEqual at h
  by_cases hl : a.length = b.length
  · rw [if_pos hl] at h
    injection h with hx
    subst hx
    constructor
    · intro hb
      simp only [beq_iff_eq] at hb
      have := (foldl_or_xor_eq_zero _ 0).mp hb
      exact eq_of_zip_eq hl this.2
    · rintro rfl
      simp only [beq_iff_eq]
      exact (foldl_or_xor_eq_zero _ 0).mpr ⟨rfl, fun p hp => mem_zip_same hp⟩
  · rw [if_neg hl] at h
    exact absurd h (by simp)

/-- Buffers of different lengths make `timingSafeEqual` throw. -/
theorem timingSafeEqual_len_ne {a b : List Nat} (h : a.length ≠ b.length) :
    timingSafeEqual a b = .error "ERR_CRYPTO_TIMING_SAFE_EQUAL_BUFFER_LENGTH" := by
  unfold timingSafeEqual
  rw [if_neg h]

/-- The unified webhook handler either verifies and acknowledges with
`200 OK`, or fails verification and rejects with `401 Unauthorized`
without having classified the topic or parsed the body. -/
theorem webhookHandler_split (hmacB64 : String → String) (d : String → Bool)
    (r : WebhookReq) :
    (webhookVerified hmacB64 r ∧ webhookHandler hmacB64 d r =
      { status := 200, body := "OK", classified := true, parsedBody := false }) ∨
    (¬ webhookVerified hmacB64 r ∧ webhookHandler hmacB64 d r =
      { status := 401, body := "Unauthorized", classified := false, parsedBody := false }) := by
  rcases hr : r.hmac with _ | h
  · refine Or.inr ⟨?_, ?_⟩
    · rintro ⟨h2, hh, _, _⟩
      rw [hr] at hh
      exact Option.noConfusion hh
    · simp [webhookHandler, hr, jsFalsy]
  · by_cases hemp : h = ""
    · subst hemp
      refine Or.inr ⟨?_, ?_⟩
      · rintro ⟨h2, hh, hne, _⟩
        rw [hr] at hh
        injection hh with hh2
        exact hne hh2.symm
      · simp [webhookHandler, hr, jsFalsy]
    · by_cases hdig : hmacB64 r.body = h
      · refine Or.inl ⟨⟨h, hr, hemp, hdig⟩, ?_⟩
        simp [webhookHandler, hr, jsFalsy, hemp, hdig, ite_self]
      · refine Or.inr ⟨?_, ?_⟩
        · rintro ⟨h2, hh, _, hd⟩
          rw [hr] at hh
          injection hh with hh2
          subst hh2
          exact hdig hd
        · simp [webhookHandler, hr, jsFalsy, hemp, hdig]

/-- C1: on the unified webhook endpoint a 200 acknowledgment is produced
exactly when webhook-body-mode HMAC verification over the raw, unparsed
body succeeded; when verification fails the response is 401 and the
handler has neither classified the topic nor parsed the body. -/
theorem webhook_ack_iff_verified (hmacB64 : String → String)
    (downstream : String → Bool) (r : WebhookReq) :
    ((webhookHandler hmacB64 downstream r).status = 200 ↔ webhookVerified hmacB64 r) ∧
    (¬ webhookVerified hmacB64 r →
      webhookHandler hmacB64 downstream r =
        { status := 401, body := "Unauthorized", classified := false,
          parsedBody := false }) := by
  rcases webhookHandler_split hmacB64 downstream r with ⟨hv, he⟩ | ⟨hv, he⟩
  · exact ⟨⟨fun _ => hv, fun _ => by rw [he]⟩, fun hnv => absurd hv hnv⟩
  · refine ⟨⟨fun hs => ?_, fun hvv => absurd hvv hv⟩, fun _ => he⟩
    rw [he] at hs
    simp at hs

/-- Concrete instance of C1: a matching signature is acknowledged with
200, and a mismatched one is rejected with 401 before classification. -/
theorem webhook_ack_iff_verified_witness :
    (webhookHandler (fun _ => "sig") (fun _ => true)
      ⟨some "sig", some "customers/redact", some "s.myshopify.com", "rawbody"⟩).status = 200 ∧
    webhookHandler (fun _ => "sig") (fun _ => true)
      ⟨some "bad", some "customers/redact", some "s.myshopify.com", "rawbody"⟩ =
      { status := 401, body := "Unauthorized", classified := false, parsedBody := false } :=
  ⟨(webhook_ack_iff_verified (fun _ => "sig") (fun _ => true) _).1.mpr
      ⟨"sig", rfl, by decide, rfl⟩,
    (webhook_ack_iff_verified (fun _ => "sig") (fun _ => true) _).2 (by
      rintro ⟨h2, hh, _, hd⟩
      injection hh with hh2
      subst hh2
      exact absurd hd (by decide))⟩

/-- C5: a verified delivery of a compliance topic is acknowledged with an
immediate 200 OK whose value is independent of every downstream oracle. -/
theorem compliance_ack_immediate (hmacB64 : String → String) (d : String → Bool)
    (r : WebhookReq) (t : String) (hver : webhookVerified hmacB64 r)
    (_ht : r.topic = some t) (_hc : t ∈ complianceTopics) :
    webhookHandler hmacB64 d r =
      { status := 200, body := "OK", classified := true, parsedBody := false } ∧
    (∀ d1 d2 : String → Bool, webhookHandler hmacB64 d1 r = webhookHandler hmacB64 d2 r) := by
  constructor
  · rcases webhookHandler_split hmacB64 d r with ⟨_, he⟩ | ⟨hnv, _⟩
    · exact he
    · exact absurd hver hnv
  · intro d1 d2
    rcases webhookHandler_split hmacB64 d1 r with ⟨_, he1⟩ | ⟨hnv, _⟩
    · rcases webhookHandler_split hmacB64 d2 r with ⟨_, he2⟩ | ⟨hnv2, _⟩
      · rw [he1, he2]
      · exact absurd hver hnv2
    · exact absurd hver hnv

/-- Concrete instance of C5: a verified customer-data-request delivery is
acknowledged 200 OK with a downstream oracle it never consults. -/
theorem compliance_ack_immediate_witness :
    webhookHandler (fun _ => "sig") (fun _ => false)
      ⟨some "sig", some "customers/data_request", some "s", "{}"⟩ =
      { status := 200, body := "OK", classified := true, parsedBody := false } :=
  (compliance_ack_immediate (fun _ => "sig") (fun _ => false) _ "customers/data_request"
    ⟨"sig", rfl, by decide, rfl⟩ rfl (by decide)).1

/-- C6: when shop and code are present but the OAuth HMAC verification
returns false, the callback answers 401 and performs no outbound call. -/
theorem oauth_callback_bad_hmac_no_network (hmacHex : String → String)
    (env : InstallEnv) (apiKey : String) (q : List (String × String))
    (hshop : jsFalsy (getParam q "shop") = false)
    (hcode : jsFalsy (getParam q "code") = false)
    (hver : verifyOAuthHmac hmacHex q = .ok false) :
    completeInstall hmacHex env apiKey q =
      { status := 401, message := "Invalid OAuth HMAC", redirect := none, calls := [] } := by
  simp [completeInstall, hshop, hcode, hver]

/-- Concrete instance of C6: a signature that fails to match yields 401
with an empty outbound-call list. -/
theorem oauth_callback_bad_hmac_no_network_witness :
    completeInstall constHex64 ⟨.error "down", .error "down"⟩ "key"
      [("code", "c"), ("hmac", effs64), ("shop", "s")] =
      { status := 401, message := "Invalid OAuth HMAC", redirect := none, calls := [] } :=
  oauth_callback_bad_hmac_no_network constHex64 ⟨.error "down", .error "down"⟩ "key"
    [("code", "c"), ("hmac", effs64), ("shop", "s")] rfl rfl (by decide)

/-- C7 evaluation (variant server of part_001): with the token endpoint
answering a non-ok response whose JSON body lacks an access token, the
variant callback still calls webhook registration and answers 302. -/
theorem variant_token_failure_still_registers :
    completeInstallVariant constHex64
      ⟨.ok ⟨false, .ok none⟩, .ok true⟩
      [("code", "abc"), ("hmac", zeros64), ("host", "hv"), ("shop", "s.myshopify.com")] =
      { status := 302, message := "",
        redirect := some "/app?shop=s.myshopify.com&host=hv",
        calls := [.tokenExchange, .webhookRegistration] } := by decide

/-- C8 evaluation (variant server of part_001): after a successful token
exchange, a network-level throw of the registration fetch is caught by the
route and turns the response into 500 instead of the success redirect. -/
theorem variant_registration_throw_aborts :
    completeInstallVariant constHex64
      ⟨.ok ⟨true, .ok (some "tok")⟩, .error "ECONNRESET"⟩
      [("code", "abc"), ("hmac", zeros64), ("host", "hv"), ("shop", "s.myshopify.com")] =
      { status := 500, message := "OAuth failed", redirect := none,
        calls := [.tokenExchange, .webhookRegistration] } := by decide

/-- The primary server answers 500 on a non-ok token response and its
outbound calls stop at the token exchange: registration is not attempted. -/
theorem completeInstall_token_failure_stops (hmacHex : String → String)
    (env : InstallEnv) (apiKey : String) (q : List (String × String))
    (t : TokenExchangeResult)
    (hshop : jsFalsy (getParam q "shop") = false)
    (hcode : jsFalsy (getParam q "code") = false)
    (hver : verifyOAuthHmac hmacHex q = .ok true)
    (hte : env.tokenExchange = .ok t) (hok : t.ok = false) :
    completeInstall hmacHex env apiKey q =
      { status := 500, message := "Failed to exchange token", redirect := none,
        calls := [.tokenExchange] } := by
  simp [completeInstall, hshop, hcode, hver, hte, hok]

/-- The primary `completeInstall` never reads the registration oracle, so
no registration outcome can change its response. -/
theorem completeInstall_ignores_registration (hmacHex : String → String)
    (te : Except String TokenExchangeResult) (r1 r2 : Except String Bool)
    (apiKey : String) (q : List (String × String)) :
    completeInstall hmacHex ⟨te, r1⟩ apiKey q = completeInstall hmacHex ⟨te, r2⟩ apiKey q := rfl

/-- C3 evaluation: on a query without an hmac parameter the guarded
verifier of the primary server returns false, while the unguarded variant
of part_001 throws a TypeError, and the webhook-body mode answers 401 for
a missing signature header. -/
theorem noguard_variant_missing_hmac_throws :
    verifyOAuthHmac constHex64 [("code", "abc"), ("host", "hv"), ("shop", "s.myshopify.com")] =
      .ok false ∧
    verifyOAuthHmacNoGuard constHex64
      [("code", "abc"), ("host", "hv"), ("shop", "s.myshopify.com")] =
      .error "TypeError: first argument must be a string, Buffer, ..." ∧
    (webhookHandler (fun _ => "sig") (fun _ => true)
      ⟨none, some "app/uninstalled", some "s", "{}"⟩).status = 401 :=
  ⟨rfl, rfl, rfl⟩

/-- C10: an hmac parameter present and truthy whose UTF-8 length is not 64
makes `verifyOAuthHmac` raise the timingSafeEqual length exception, and the
callback route then ends in the 500-class outcome, not in 401. -/
theorem oauth_wrong_length_hmac_throws (hmacHex : String → String)
    (hlen : ∀ m, (utf8Str (hmacHex m)).length = 64)
    (env : InstallEnv) (apiKey : String) (q : List (String × String)) (h : String)
    (hh : getParam q "hmac" = some h) (hne : (h == "") = false)
    (hl : (utf8Str h).length ≠ 64)
    (hshop : jsFalsy (getParam q "shop") = false)
    (hcode : jsFalsy (getParam q "code") = false) :
    verifyOAuthHmac hmacHex q = .error "ERR_CRYPTO_TIMING_SAFE_EQUAL_BUFFER_LENGTH" ∧
    (completeInstall hmacHex env apiKey q).status = 500 ∧
    (completeInstall hmacHex env apiKey q).status ≠ 401 := by
  have hver : verifyOAuthHmac hmacHex q =
      .error "ERR_CRYPTO_TIMING_SAFE_EQUAL_BUFFER_LENGTH" := by
    simp only [verifyOAuthHmac, hh, hne, Bool.false_eq_true, if_false]
    refine timingSafeEqual_len_ne ?_
    rw [hlen (buildMessage q)]
    omega
  refine ⟨hver, ?_, ?_⟩ <;> simp [completeInstall, hshop, hcode, hver]

/-- Concrete instance of C10: a two-character hmac parameter causes the
length exception and a 500-class outcome. -/
theorem oauth_wrong_length_hmac_throws_witness :
    verifyOAuthHmac constHex64 [("code", "c"), ("hmac", "zz"), ("shop", "s")] =
      .error "ERR_CRYPTO_TIMING_SAFE_EQUAL_BUFFER_LENGTH" ∧
    (completeInstall constHex64 ⟨.error "down", .error "down"⟩ "key"
      [("code", "c"), ("hmac", "zz"), ("shop", "s")]).status = 500 ∧
    (completeInstall constHex64 ⟨.error "down", .error "down"⟩ "key"
      [("code", "c"), ("hmac", "zz"), ("shop", "s")]).status ≠ 401 :=
  oauth_wrong_length_hmac_throws constHex64
    (fun _ => (by decide : (utf8Str zeros64).length = 64))
    ⟨.error "down", .error "down"⟩ "key"
    [("code", "c"), ("hmac", "zz"), ("shop", "s")] "zz" rfl rfl (by decide) rfl rfl

/-- C2 counterexample: at a concrete query whose hmac value has two bytes,
the OAuth-mode comparison raises an exception, while byte-equality of the
digest and the provided signature is plain false — so the comparison
outcome does not equal byte-equality at every input pair. -/
theorem oauth_compare_counterexample :
    verifyOAuthHmac constHex64 [("hmac", "ab"), ("shop", "x")] =
      .error "ERR_CRYPTO_TIMING_SAFE_EQUAL_BUFFER_LENGTH" ∧
    utf8Str (constHex64 (buildMessage [("hmac", "ab"), ("shop", "x")])) ≠ utf8Str "ab" :=
  ⟨by decide, by decide⟩

/-- C2 amended: when `timingSafeEqual` returns a boolean that boolean is
byte-equality of the buffers; buffers of unequal length make it throw
instead; and the webhook-mode string comparison agrees with equality of
the code-unit sequences of the compared digests. -/
theorem hmac_compare_eq_byte_equality :
    (∀ a b : List Nat, ∀ x : Bool, timingSafeEqual a b = .ok x → (x = true ↔ a = b)) ∧
    (∀ a b : List Nat, a.length ≠ b.length →
      timingSafeEqual a b = .error "ERR_CRYPTO_TIMING_SAFE_EQUAL_BUFFER_LENGTH") ∧
    (∀ g h : String, (g == h) = true ↔ utf16Str g = utf16Str h) := by
  refine ⟨fun a b x hx => timingSafeEqual_ok_iff hx,
    fun a b hab => timingSafeEqual_len_ne hab, fun g h => ?_⟩
  constructor
  · intro hgh
    have hg : g = h := by simpa using hgh
    rw [hg]
  · intro he
    simpa using utf16Str_inj he

/-- Concrete instance of the amended C2. -/
theorem hmac_compare_eq_byte_equality_witness :
    (true = true ↔ ([7, 9] : List Nat) = [7, 9]) ∧
    timingSafeEqual [1] [2, 3] = .error "ERR_CRYPTO_TIMING_SAFE_EQUAL_BUFFER_LENGTH" ∧
    (("ab" == "ab") = true ↔ utf16Str "ab" = utf16Str "ab") :=
  ⟨hmac_compare_eq_byte_equality.1 [7, 9] [7, 9] true (by decide),
    hmac_compare_eq_byte_equality.2.1 [1] [2, 3] (by decide),
    hmac_compare_eq_byte_equality.2.2 "ab" "ab"⟩

/-- C4 counterexample: with an astral-plane key (U+10000) and a
basic-plane key (U+FFFD) the implementation message (keys sorted by
UTF-16 code units, the JS default sort) differs from the message with keys
sorted byte-wise ascending as the spec demands. -/
theorem message_not_bytewise_counterexample :
    buildMessage [(astralKey, "1"), (bmpKey, "2")] ≠
      buildMessageSpec [(astralKey, "1"), (bmpKey, "2")] := by decide

/-- C4 amended: the signed message carries every parameter except the
signature with keys sorted ascending by UTF-16 code units (the JS default
string sort), and permuting the input parameter order never changes the
message — hence never the digest. -/
theorem message_sorted_utf16_perm_invariant :
    (∀ q : List (String × String),
      (sortedParams q).Pairwise (fun a b => keyLEb a b = true)) ∧
    (∀ q1 q2 : List (String × String), q1.Perm q2 → (q1.map Prod.fst).Nodup →
      buildMessage q1 = buildMessage q2) := by
  refine ⟨fun q => sorted_sortPairsBy (stripHmac q), fun q1 q2 hp hnd => ?_⟩
  unfold buildMessage
  rw [sortedParams_perm hp hnd]

/-- Concrete instance of the amended C4: swapping two parameters leaves
the signed message unchanged. -/
theorem message_sorted_utf16_perm_invariant_witness :
    buildMessage [("b", "2"), ("a", "1")] = buildMessage [("a", "1"), ("b", "2")] :=
  message_sorted_utf16_perm_invariant.2 [("b", "2"), ("a", "1")] [("a", "1"), ("b", "2")]
    (List.Perm.swap ("a", "1") ("b", "2") []) (by decide)

/-- C9 counterexample: a shop that does not match the platform domain
pattern is not rejected with 400 — `beginInstall` still answers 302 with
an authorize URL built from it. -/
theorem begin_install_no_pattern_check :
    shopDomainPattern "evil.com" = false ∧
    beginInstall "key" "write_themes" "https://app.example" (some "evil.com") =
      { status := 302,
        location := some ("https://evil.com/admin/oauth/authorize?client_id=key" ++
          "&scope=write_themes&redirect_uri=https%3A%2F%2Fapp.example%2Fauth%2Fcallback") } :=
  ⟨by decide, by decide⟩

/-- C9 amended: `beginInstall` validates only JS-truthiness of the shop
parameter: 400 exactly when it is missing or empty, otherwise 302 to the
authorize URL interpolated from the shop verbatim, with no pattern check. -/
theorem begin_install_presence_only (apiKey scopes host : String) (shop : Option String) :
    ((beginInstall apiKey scopes host shop).status = 400 ↔ jsFalsy shop = true) ∧
    (jsFalsy shop = false →
      (beginInstall apiKey scopes host shop).status = 302 ∧
      (beginInstall apiKey scopes host shop).location =
        some ("https://" ++ shop.getD "" ++ "/admin/oauth/authorize?client_id=" ++
          apiKey ++ "&scope=" ++ scopes ++ "&redirect_uri=" ++
          encodeURIComponent (host ++ "/auth/callback"))) := by
  cases hf : jsFalsy shop with
  | true => simp [beginInstall, hf]
  | false => simp [beginInstall, hf]

/-- Concrete instance of the amended C9: a malformed shop is accepted with
302 and a missing shop is rejected with 400. -/
theorem begin_install_presence_only_witness :
    (beginInstall "k" "sc" "h" (some "evil.com")).status = 302 ∧
    (beginInstall "k" "sc" "h" none).status = 400 :=
  ⟨((begin_install_presence_only "k" "sc" "h" (some "evil.com")).2 (by decide)).1,
    (begin_install_presence_only "k" "sc" "h" none).1.mpr (by decide)⟩

end StickyCart
